import Mathlib

/-!
Verification of the gbzd DMG emulator core against its specification.

The definitions below are a shallow embedding of the Rust sources:
  src/memory_gb.rs, src/special_registers.rs, src/input.rs, src/cart.rs,
  src/processor/cpu.rs, src/processor/ops.rs, src/processor/execute.rs,
  src/ppu.rs.
Bytes and 16-bit words are represented as Nat with explicit reductions
modulo 256 and 65536 where the Rust u8/u16 arithmetic wraps.
-/

namespace Gbzd

/-- Pointwise update of a byte buffer represented as a function. -/
def upd (f : Nat → Nat) (i v : Nat) : Nat → Nat :=
  fun j => if j = i then v else f j

/-! ## Joypad (input.rs) -/

/-- input.rs JoypadMode. -/
inductive JoypadMode where
  | DPad
  | Buttons
  | Unselected
  deriving DecidableEq

/-- input.rs Joypad: a byte of button states (0 = pressed) and a mode. -/
structure Joypad where
  button_values : Nat
  mode : JoypadMode
  deriving DecidableEq

/-- input.rs Joypad::read. -/
def Joypad.read (j : Joypad) : Nat :=
  match j.mode with
  | JoypadMode.Buttons => (1 <<< 5) ||| ((j.button_values >>> 4) &&& 0x0F)
  | JoypadMode.DPad => (1 <<< 4) ||| (j.button_values &&& 0x0F)
  | JoypadMode.Unselected => 0x0F

/-- input.rs Joypad::set_mode. -/
def Joypad.set_mode (j : Joypad) (m : JoypadMode) : Joypad :=
  { j with mode := m }

/-! ## Timer and divider (special_registers.rs) -/

/-- special_registers.rs Timer, with the two-byte Divider inlined as the
16-bit value `divider` (the Rust code stores it little-endian as `[Byte; 2]`
and reads the full value with `Word::from_le_bytes`). -/
structure Timer where
  overflowing : Bool
  divider : Nat
  counter : Nat
  modulo : Nat
  control : Nat
  deriving DecidableEq

/-- special_registers.rs Divider read: only the top byte of the two-byte
divider is exposed in the address space (`T::from_le_bytes(&self.data[1..])`). -/
def Timer.read_divider (t : Timer) : Nat :=
  (t.divider / 256) % 256

/-- special_registers.rs Divider write: writing any value clears both bytes. -/
def Timer.write_divider (t : Timer) (_value : Nat) : Timer :=
  { t with divider := 0 }

/-- special_registers.rs Timer::write_control: TAC is masked to 3 bits. -/
def Timer.write_control (t : Timer) (value : Nat) : Timer :=
  { t with control := value &&& 0x7 }

/-- special_registers.rs Timer::control_mask. -/
def Timer.control_mask (t : Timer) : Nat :=
  match t.control &&& 0x3 with
  | 0 => 1 <<< 9
  | 1 => 1 <<< 3
  | 2 => 1 <<< 5
  | 3 => 1 <<< 7
  | _ => 0

/-- special_registers.rs Timer::tick. Returns the new timer state and the
interrupt-ready status. The divider increment wraps at 16 bits
(`wrapping_add`). -/
def Timer.tick (t0 : Timer) : Timer × Bool :=
  let pre_tick := t0.divider
  let t1 : Timer := { t0 with divider := (pre_tick + 1) % 65536 }
  let post_tick := t1.divider
  let delta := pre_tick ^^^ post_tick
  let timer_mask := t0.control_mask
  let fire := t1.overflowing
  let t2 : Timer :=
    if t1.overflowing then
      { t1 with counter := t1.modulo, overflowing := false }
    else t1
  let timer_counter_to_tick := 0 < (timer_mask &&& delta &&& pre_tick)
  let t3 : Timer :=
    if timer_counter_to_tick ∧ 0 < (t2.control &&& 0x4) then
      if t2.counter = 0xFF then
        { t2 with overflowing := true, counter := 0 }
      else
        { t2 with counter := t2.counter + 1 }
    else t2
  (t3, fire)

/-! ## Cartridge (cart.rs)

The memory map forwards addresses below 0x8000 and the external-RAM window
0xA000-0xBFFF to the cartridge. The cartridge is modelled as the NoMBC
mapper variant of cart.rs: reads index a flat ROM blob and writes are
ignored. No claim exercises the banked MBC1/MBC3/MBC5 mappers, and no
theorem below evaluates a cartridge access. -/

/-- cart.rs NoMBC: a flat blob of bytes. -/
structure Cart where
  rom : Nat → Nat

/-- cart.rs NoMBC read: `read_from_buffer(&self.data, address)`. -/
def Cart.readB (c : Cart) (address : Nat) : Nat :=
  c.rom address

/-- cart.rs NoMBC write: writes to a NoMBC cart are dropped. -/
def Cart.writeB (c : Cart) (_value _address : Nat) : Cart :=
  c

/-! ## Memory map (memory_gb.rs) -/

/-- memory_gb.rs MemoryMapData / MemoryMap: each SimpleRegion buffer is a
function from offset to byte. Note the source gives the echo region
0xE000-0xFDFF its own buffer, distinct from work RAM. -/
structure MemoryMap where
  cart : Cart
  timer : Timer
  joypad : Joypad
  vram : Nat → Nat
  work_ram : Nat → Nat
  work_ram_swappable : Nat → Nat
  echo_ram : Nat → Nat
  oam : Nat → Nat
  unusable : Nat → Nat
  io_registers : Nat → Nat
  hram : Nat → Nat
  ie : Nat

/-- memory_gb.rs MemoryMap::read at Byte granularity: the if-else chain of
region dispatches, with the trapped io registers handled first within the
io-register arm. -/
def MemoryMap.readByte (m : MemoryMap) (address : Nat) : Nat :=
  if address = 0xFFFF then m.ie
  else if 0xFF80 ≤ address then m.hram (address - 0xFF80)
  else if 0xFF00 ≤ address then
    if address = 0xFF00 then m.joypad.read
    else if address = 0xFF04 then m.timer.read_divider
    else if address = 0xFF05 then m.timer.counter
    else if address = 0xFF06 then m.timer.modulo
    else if address = 0xFF07 then m.timer.control
    else m.io_registers (address - 0xFF00)
  else if 0xFEA0 ≤ address then m.unusable (address - 0xFEA0)
  else if 0xFE00 ≤ address then m.oam (address - 0xFE00)
  else if 0xE000 ≤ address then m.echo_ram (address - 0xE000)
  else if 0xD000 ≤ address then m.work_ram_swappable (address - 0xD000)
  else if 0xC000 ≤ address then m.work_ram (address - 0xC000)
  else if 0xA000 ≤ address then m.cart.readB address
  else if 0x8000 ≤ address then m.vram (address - 0x8000)
  else m.cart.readB address

/-- memory_gb.rs MemoryMap::read at Word granularity. The dispatch happens
once on the base address; the chosen SimpleRegion then reads the two bytes
at offsets (address - start, address - start + 1) little-endian. The trapped
io registers return `T::promote(byte)`, the zero-extended byte. The
IE arm mirrors the single-byte buffer of the source, where a word read
there would run off the end of the buffer. -/
def MemoryMap.readWord (m : MemoryMap) (address : Nat) : Nat :=
  if address = 0xFFFF then m.ie
  else if 0xFF80 ≤ address then
    m.hram (address - 0xFF80) + 256 * m.hram (address - 0xFF80 + 1)
  else if 0xFF00 ≤ address then
    if address = 0xFF00 then m.joypad.read
    else if address = 0xFF04 then m.timer.read_divider
    else if address = 0xFF05 then m.timer.counter
    else if address = 0xFF06 then m.timer.modulo
    else if address = 0xFF07 then m.timer.control
    else m.io_registers (address - 0xFF00) + 256 * m.io_registers (address - 0xFF00 + 1)
  else if 0xFEA0 ≤ address then m.unusable (address - 0xFEA0) + 256 * m.unusable (address - 0xFEA0 + 1)
  else if 0xFE00 ≤ address then m.oam (address - 0xFE00) + 256 * m.oam (address - 0xFE00 + 1)
  else if 0xE000 ≤ address then m.echo_ram (address - 0xE000) + 256 * m.echo_ram (address - 0xE000 + 1)
  else if 0xD000 ≤ address then
    m.work_ram_swappable (address - 0xD000) + 256 * m.work_ram_swappable (address - 0xD000 + 1)
  else if 0xC000 ≤ address then m.work_ram (address - 0xC000) + 256 * m.work_ram (address - 0xC000 + 1)
  else if 0xA000 ≤ address then m.cart.readB address
  else if 0x8000 ≤ address then m.vram (address - 0x8000) + 256 * m.vram (address - 0x8000 + 1)
  else m.cart.readB address

/-- memory_gb.rs MemoryMap::dma: a synchronous 160-byte copy into OAM.
Each destination 0xFE00 + i of the inner `self.write` dispatches to the
OAM arm of the write chain, so the copy is expressed directly on the OAM
buffer. -/
def MemoryMap.dma (m : MemoryMap) (source_upper_byte : Nat) : MemoryMap :=
  (List.range 0xA0).foldl
    (fun acc i =>
      let copy_byte := acc.readByte (source_upper_byte * 256 + i)
      { acc with oam := upd acc.oam i copy_byte })
    m

/-- memory_gb.rs MemoryMap::write at Byte granularity. For a Byte value,
`value.demote()` is the value itself. The write to 0xFF01 only prints the
byte as ASCII and changes no state. -/
def MemoryMap.writeByte (m : MemoryMap) (value address : Nat) : MemoryMap :=
  if address = 0xFFFF then { m with ie := value % 256 }
  else if 0xFF80 ≤ address then { m with hram := upd m.hram (address - 0xFF80) (value % 256) }
  else if 0xFF00 ≤ address then
    if address = 0xFF00 then
      match (value % 256) >>> 4 with
      | 0 => { m with joypad := m.joypad.set_mode JoypadMode.Unselected }
      | 1 => { m with joypad := m.joypad.set_mode JoypadMode.DPad }
      | 2 => { m with joypad := m.joypad.set_mode JoypadMode.Buttons }
      | _ => m
    else if address = 0xFF01 then m
    else if address = 0xFF04 then { m with timer := m.timer.write_divider (value % 256) }
    else if address = 0xFF05 then { m with timer := { m.timer with counter := value % 256 } }
    else if address = 0xFF06 then { m with timer := { m.timer with modulo := value % 256 } }
    else if address = 0xFF07 then { m with timer := m.timer.write_control (value % 256) }
    else if address = 0xFF46 then m.dma (value % 256)
    else { m with io_registers := upd m.io_registers (address - 0xFF00) (value % 256) }
  else if 0xFEA0 ≤ address then { m with unusable := upd m.unusable (address - 0xFEA0) (value % 256) }
  else if 0xFE00 ≤ address then { m with oam := upd m.oam (address - 0xFE00) (value % 256) }
  else if 0xE000 ≤ address then { m with echo_ram := upd m.echo_ram (address - 0xE000) (value % 256) }
  else if 0xD000 ≤ address then
    { m with work_ram_swappable := upd m.work_ram_swappable (address - 0xD000) (value % 256) }
  else if 0xC000 ≤ address then { m with work_ram := upd m.work_ram (address - 0xC000) (value % 256) }
  else if 0xA000 ≤ address then { m with cart := m.cart.writeB value address }
  else if 0x8000 ≤ address then { m with vram := upd m.vram (address - 0x8000) (value % 256) }
  else { m with cart := m.cart.writeB value address }

/-- memory_gb.rs MemoryMap::write at Word granularity. The dispatch happens
once on the base address; each SimpleRegion arm stores the little-endian
byte pair into its own buffer at offsets (address - start, address - start + 1).
For the trapped io registers, `value.demote()` on a Word is the LAST of its
little-endian bytes, i.e. the high byte. The IE arm mirrors the single-byte
buffer of the source, where a word write would overrun it. -/
def MemoryMap.writeWord (m : MemoryMap) (value address : Nat) : MemoryMap :=
  let lo := value % 256
  let hi := (value / 256) % 256
  if address = 0xFFFF then { m with ie := lo }
  else if 0xFF80 ≤ address then
    { m with hram := upd (upd m.hram (address - 0xFF80) lo) (address - 0xFF80 + 1) hi }
  else if 0xFF00 ≤ address then
    if address = 0xFF00 then
      match hi >>> 4 with
      | 0 => { m with joypad := m.joypad.set_mode JoypadMode.Unselected }
      | 1 => { m with joypad := m.joypad.set_mode JoypadMode.DPad }
      | 2 => { m with joypad := m.joypad.set_mode JoypadMode.Buttons }
      | _ => m
    else if address = 0xFF01 then m
    else if address = 0xFF04 then { m with timer := m.timer.write_divider hi }
    else if address = 0xFF05 then { m with timer := { m.timer with counter := hi } }
    else if address = 0xFF06 then { m with timer := { m.timer with modulo := hi } }
    else if address = 0xFF07 then { m with timer := m.timer.write_control hi }
    else if address = 0xFF46 then m.dma hi
    else { m with io_registers := upd (upd m.io_registers (address - 0xFF00) lo) (address - 0xFF00 + 1) hi }
  else if 0xFEA0 ≤ address then
    { m with unusable := upd (upd m.unusable (address - 0xFEA0) lo) (address - 0xFEA0 + 1) hi }
  else if 0xFE00 ≤ address then
    { m with oam := upd (upd m.oam (address - 0xFE00) lo) (address - 0xFE00 + 1) hi }
  else if 0xE000 ≤ address then
    { m with echo_ram := upd (upd m.echo_ram (address - 0xE000) lo) (address - 0xE000 + 1) hi }
  else if 0xD000 ≤ address then
    { m with work_ram_swappable := upd (upd m.work_ram_swappable (address - 0xD000) lo) (address - 0xD000 + 1) hi }
  else if 0xC000 ≤ address then
    { m with work_ram := upd (upd m.work_ram (address - 0xC000) lo) (address - 0xC000 + 1) hi }
  else if 0xA000 ≤ address then { m with cart := m.cart.writeB value address }
  else if 0x8000 ≤ address then
    { m with vram := upd (upd m.vram (address - 0x8000) lo) (address - 0x8000 + 1) hi }
  else { m with cart := m.cart.writeB value address }

/-! ## CPU register file (processor/cpu.rs) -/

/-- processor/cpu.rs RegisterBank: twelve bytes in the memory order
F, A, C, B, E, D, L, H, SP-low, SP-high, PC-low, PC-high, modelled as a
function from index to byte. -/
def Regs : Type := Nat → Nat

/-- processor/cpu.rs ByteRegisterName discriminants. -/
def RegF : Nat := 0
def RegA : Nat := 1
def RegC : Nat := 2
def RegB : Nat := 3
def RegE : Nat := 4
def RegD : Nat := 5
def RegL : Nat := 6
def RegH : Nat := 7

/-- processor/cpu.rs WordRegisterName discriminants. -/
def RegAF : Nat := 0
def RegBC : Nat := 2
def RegDE : Nat := 4
def RegHL : Nat := 6
def RegSP : Nat := 8
def RegPC : Nat := 10

/-- processor/cpu.rs Flags discriminants (bit positions above the low
nibble of F). -/
def FlagZ : Nat := 3
def FlagN : Nat := 2
def FlagH : Nat := 1
def FlagC : Nat := 0

/-- RegisterBank::read_byte via read_from_buffer. -/
def Regs.readByte (r : Regs) (i : Nat) : Nat := r i

/-- RegisterBank::read_word via read_from_buffer: the little-endian pair at
indices i and i + 1. -/
def Regs.readWord (r : Regs) (i : Nat) : Nat := r i + 256 * r (i + 1)

/-- RegisterBank::write_byte. -/
def Regs.writeByte (r : Regs) (i v : Nat) : Regs := upd r i (v % 256)

/-- RegisterBank::write_word: stores the little-endian byte pair. -/
def Regs.writeWord (r : Regs) (i v : Nat) : Regs :=
  upd (upd r i (v % 256)) (i + 1) ((v / 256) % 256)

/-- RegisterBank::set_flag_on: OR the mask `1 << (4 + flag)` into F. -/
def Regs.set_flag_on (r : Regs) (flag : Nat) : Regs :=
  r.writeByte RegF (r.readByte RegF ||| (1 <<< (4 + flag)))

/-- RegisterBank::set_flag_off: AND the complemented mask into F. -/
def Regs.set_flag_off (r : Regs) (flag : Nat) : Regs :=
  r.writeByte RegF (r.readByte RegF &&& (0xFF ^^^ (1 <<< (4 + flag))))

/-- RegisterBank::set_flag. -/
def Regs.set_flag (r : Regs) (flag : Nat) (value : Bool) : Regs :=
  if value then r.set_flag_on flag else r.set_flag_off flag

/-- RegisterBank::check_flag. -/
def Regs.check_flag (r : Regs) (flag : Nat) : Bool :=
  decide (0 < (r.readByte RegF &&& (1 <<< (4 + flag))))

/-- processor/cpu.rs ConditionCodes. -/
inductive Cond where
  | C
  | NC
  | NZ
  | Z
  | NA
  deriving DecidableEq

/-- RegisterBank::check_condition. -/
def Regs.check_condition (r : Regs) (condition : Cond) : Bool :=
  match condition with
  | Cond.NA => true
  | Cond.NC => !(r.check_flag FlagC)
  | Cond.NZ => !(r.check_flag FlagZ)
  | Cond.C => r.check_flag FlagC
  | Cond.Z => r.check_flag FlagZ

/-- RegisterBank::step_pc: `pc + increment` on u16 (the per-byte reductions
of write_word realize the wrap). -/
def Regs.step_pc (r : Regs) (increment : Nat) : Regs :=
  r.writeWord RegPC (r.readWord RegPC + increment)

/-! ## CPU state (processor/cpu.rs Cpu) -/

/-- processor/cpu.rs Cpu: register bank, shared memory map, and the IME,
halted and stopped flags. -/
structure Cpu where
  regs : Regs
  memory : MemoryMap
  ime : Bool
  halted : Bool
  stopped : Bool

/-! ## CPU operations (processor/ops.rs) -/

/-- ops.rs Cpu::push: SP is decremented by 2 (u16 wrapping), written back,
the register pair is stored through the memory map at the new SP, and SP
is written again. -/
def Cpu.push (c : Cpu) (registerIdx : Nat) : Cpu :=
  let new_stack_pointer := (c.regs.readWord RegSP + 65534) % 65536
  let regs1 := c.regs.writeWord RegSP new_stack_pointer
  let contents := regs1.readWord registerIdx
  let mem1 := c.memory.writeWord contents new_stack_pointer
  { c with regs := regs1.writeWord RegSP new_stack_pointer, memory := mem1 }

/-- ops.rs Cpu::pop: read the word at SP, store it to the register pair
(masking the low nibble of F for AF), then post-increment SP by 2. -/
def Cpu.pop (c : Cpu) (registerIdx : Nat) : Cpu :=
  let address := c.regs.readWord RegSP
  let contents := c.memory.readWord address
  let regs1 :=
    if registerIdx = RegAF then c.regs.writeWord registerIdx (contents &&& 0xFFF0)
    else c.regs.writeWord registerIdx contents
  { c with regs := regs1.writeWord RegSP (address + 2) }

/-- ops.rs Cpu::jp. -/
def Cpu.jp (c : Cpu) (address : Nat) (condition : Cond) : Cpu × Bool :=
  if c.regs.check_condition condition then
    ({ c with regs := c.regs.writeWord RegPC address }, true)
  else (c, false)

/-- ops.rs Cpu::jr. The offset is the sign-interpreted operand byte; the
target is `PC.checked_add_signed(offset)` (in range for every state the
theorems evaluate). NOTE: the source stores the computed target into the
stack-pointer register RegSP, not into RegPC. -/
def Cpu.jr (c : Cpu) (offset : Int) (condition : Cond) : Cpu × Bool :=
  if c.regs.check_condition condition then
    let current_address := c.regs.readWord RegPC
    let address := ((current_address : Int) + offset).toNat
    ({ c with regs := c.regs.writeWord RegSP address }, true)
  else (c, false)

/-- ops.rs Cpu::call: push PC, then jump PC to the address. -/
def Cpu.call (c : Cpu) (address : Nat) (condition : Cond) : Cpu × Bool :=
  if c.regs.check_condition condition then
    let c1 := c.push RegPC
    ({ c1 with regs := c1.regs.writeWord RegPC address }, true)
  else (c, false)

/-- ops.rs Cpu::ret: pop into PC. -/
def Cpu.ret (c : Cpu) (condition : Cond) : Cpu × Bool :=
  if c.regs.check_condition condition then (c.pop RegPC, true)
  else (c, false)

/-- ops.rs Cpu::byte_addition: the operands are widened to 16 bits and
summed together with the optional prior carry. Returns
(result byte, zero, negate, half_carry, carry). NOTE: the `zero` component
is computed from the full widened sum `result == 0`, not from its low
8 bits. -/
def Cpu.byte_addition (c : Cpu) (lhs rhs : Nat) (with_carry : Bool) :
    Nat × Bool × Bool × Bool × Bool :=
  let prior_carry := if with_carry then (if c.regs.check_flag FlagC then 1 else 0) else 0
  let result := lhs + rhs + prior_carry
  let zero := decide (result = 0)
  let negate := false
  let half_carry := decide (0x0F < (lhs &&& 0x0F) + (rhs &&& 0x0F) + prior_carry)
  let carry := decide (0xFF < (lhs &&& 0xFF) + (rhs &&& 0xFF) + prior_carry)
  (result % 256, zero, negate, half_carry, carry)

/-- ops.rs Cpu::add_byte with the A register as left operand and an
already-fetched byte as right operand: sets Z, N, H, C from byte_addition
and stores the result byte into A. -/
def Cpu.add_byte (c : Cpu) (rhs : Nat) (with_carry : Bool) : Cpu :=
  let lhs := c.regs.readByte RegA
  let res := c.byte_addition lhs rhs with_carry
  let result := res.1
  let zero := res.2.1
  let negate := res.2.2.1
  let half_carry := res.2.2.2.1
  let carry := res.2.2.2.2
  let regs1 := (((c.regs.set_flag FlagZ zero).set_flag FlagN negate).set_flag
      FlagH half_carry).set_flag FlagC carry
  { c with regs := regs1.writeByte RegA result }

/-- ops.rs Cpu::daa, adjustment arithmetic: the two successive values taken
by the mutable `result` variable, tracked over the integers so that each
departure from the u8 lane (a `+=`/`-=` that overflows or underflows the
8-bit value) is visible. The inputs are the initial A byte and the prior
N, C, H flags. In the N=0 branch the second condition reads the low nibble
of the result after the first adjustment (unchanged by a mod-256 wrap,
since 16 divides 256). -/
def daa_trace (a : Nat) (n c h : Bool) : List Int :=
  if !n then
    let r1 : Int := if c || decide (0x99 < a) then (a : Int) + 0x60 else (a : Int)
    let r2 : Int := if h || decide (0x09 < r1.toNat % 16) then r1 + 0x6 else r1
    [r1, r2]
  else
    let r1 : Int := if c then (a : Int) - 0x60 else (a : Int)
    let r2 : Int := if h then r1 - 0x6 else r1
    [r1, r2]

/-- The property that the daa adjustment arithmetic stays inside the 8-bit
lane: every intermediate value of `result` is a representable u8, so the
u8 `+=`/`-=` operations of ops.rs daa neither overflow nor underflow. -/
def daa_in_lane (a : Nat) (n c h : Bool) : Prop :=
  ∀ x ∈ daa_trace a n c h, 0 ≤ x ∧ x < 256

instance (a : Nat) (n c h : Bool) : Decidable (daa_in_lane a n c h) := by
  unfold daa_in_lane
  infer_instance

/-! ## Interrupt servicing and the run loop (processor/cpu.rs) -/

/-- processor/cpu.rs IF_REG_ADDR. -/
def IF_REG_ADDR : Nat := 0xFF0F

/-- processor/cpu.rs IE_REG_ADDR. -/
def IE_REG_ADDR : Nat := 0xFFFF

/-- processor/cpu.rs Cpu::service_interrupt. When IME is set and IE and IF
intersect, the chain inspects the IF bits from bit 0 upward; the final arm
(joypad) is an unconditional else that clears bit 4 and selects 0x0060
whatever the remaining bits are. The selected IF bit is cleared through the
memory map, IME is toggled off, and call pushes PC and jumps to the ISR
address. Returns the new state and whether an interrupt was serviced. -/
def Cpu.service_interrupt (c : Cpu) : Cpu × Bool :=
  let reg_if := c.memory.readByte IF_REG_ADDR
  let reg_ie := c.memory.readByte IE_REG_ADDR
  if c.ime ∧ 0 < (reg_ie &&& reg_if) then
    let pair :=
      if 0 < (reg_if &&& (1 <<< 0)) then ((0xFF ^^^ (1 <<< 0)) &&& reg_if, 0x0040)
      else if 0 < (reg_if &&& (1 <<< 1)) then ((0xFF ^^^ (1 <<< 1)) &&& reg_if, 0x0048)
      else if 0 < (reg_if &&& (1 <<< 2)) then ((0xFF ^^^ (1 <<< 2)) &&& reg_if, 0x0050)
      else if 0 < (reg_if &&& (1 <<< 3)) then ((0xFF ^^^ (1 <<< 3)) &&& reg_if, 0x0058)
      else ((0xFF ^^^ (1 <<< 4)) &&& reg_if, 0x0060)
    let c1 := { c with memory := c.memory.writeByte pair.1 IF_REG_ADDR }
    let c2 := { c1 with ime := false }
    ((c2.call pair.2 Cond.NA).1, true)
  else (c, false)

/-- processor/cpu.rs Cpu::tick_timer: advance the timer one unit; if the
overflow latch fired, OR bit 2 into IF through the raw io_registers
region (offset 0x0F). -/
def Cpu.tick_timer (c : Cpu) : Cpu :=
  let res := c.memory.timer.tick
  let m1 := { c.memory with timer := res.1 }
  if res.2 then
    let if_value := m1.io_registers 0x0F
    { c with memory :=
        { m1 with io_registers := upd m1.io_registers 0x0F ((if_value ||| 0x4) % 256) } }
  else { c with memory := m1 }

/-- Iterated Cpu::tick_timer (the `for _ in 0..(4*cost)` loop of run). -/
def Cpu.tick_timers (c : Cpu) : Nat → Cpu
  | 0 => c
  | n + 1 => (c.tick_timer).tick_timers n

/-! ## Instruction dispatch (processor/execute.rs) -/

/-- memory_gb.rs ByteExt::interpret_as_signed: the byte as a signed 8-bit
value. -/
def interpret_as_signed (b : Nat) : Int :=
  if b < 128 then (b : Int) else (b : Int) - 256

/-- execute.rs Cpu::byte_operand: the byte at PC + 1 (u16 addition). -/
def Cpu.byte_operand (c : Cpu) : Nat :=
  c.memory.readByte ((c.regs.readWord RegPC + 1) % 65536)

/-- execute.rs Cpu::fetch: the byte at PC. -/
def Cpu.fetch (c : Cpu) : Nat :=
  c.memory.readByte (c.regs.readWord RegPC)

/-- The eleven opcodes with no arm in the execute.rs step match; they fall
through to the catch-all `_ => 0`. (0xD3 and friends do appear in the
separate 256-entry step_cb table, which is complete.) -/
def illegal_opcodes : List Nat :=
  [0xD3, 0xDB, 0xDD, 0xE3, 0xE4, 0xEB, 0xEC, 0xED, 0xF4, 0xFC, 0xFD]

/-- execute.rs Cpu::step, embedded for the opcodes the claims exercise;
opcodes outside this subset (other than the eleven illegal ones) are not
embedded and yield none. Each embedded arm is a direct transcription of
its source arm:
  0x00 NOP; 0x18/0x20/0x28/0x30/0x38 JR (operand fetched, PC stepped by 2,
  then Cpu::jr with the condition code of the arm, branch-dependent cost);
  0xD9 RETI, which in the source is only `step_pc(1)` and a plain
  `ret(ConditionCodes::NA)` with cost 4 (comment: TODO verify if
  reti = ret in practice) and does not touch IME;
  0xFB EI, which in the source is only `step_pc(1)` with cost 1 and a
  `// TODO: EI` comment, with no side effect of any kind;
  and the catch-all `_ => 0`, reached exactly by the eleven illegal
  opcodes: it leaves every part of the state unchanged, does not advance
  PC, and reports 0 machine cycles. The source step reports only this
  cycle count; it has no side-effect channel. -/
def Cpu.step (c : Cpu) : Option (Cpu × Nat) :=
  let instruction := c.fetch
  match instruction with
  | 0x00 =>
      some ({ c with regs := c.regs.step_pc 1 }, 1)
  | 0x18 =>
      let offset := interpret_as_signed c.byte_operand
      let c1 := { c with regs := c.regs.step_pc 2 }
      some ((c1.jr offset Cond.NA).1, 3)
  | 0x20 =>
      let offset := interpret_as_signed c.byte_operand
      let c1 := { c with regs := c.regs.step_pc 2 }
      let res := c1.jr offset Cond.NZ
      some (res.1, if res.2 then 3 else 2)
  | 0x28 =>
      let offset := interpret_as_signed c.byte_operand
      let c1 := { c with regs := c.regs.step_pc 2 }
      let res := c1.jr offset Cond.Z
      some (res.1, if res.2 then 3 else 2)
  | 0x30 =>
      let offset := interpret_as_signed c.byte_operand
      let c1 := { c with regs := c.regs.step_pc 2 }
      let res := c1.jr offset Cond.NC
      some (res.1, if res.2 then 3 else 2)
  | 0x38 =>
      let offset := interpret_as_signed c.byte_operand
      let c1 := { c with regs := c.regs.step_pc 2 }
      let res := c1.jr offset Cond.C
      some (res.1, if res.2 then 3 else 2)
  | 0xD9 =>
      let c1 := { c with regs := c.regs.step_pc 1 }
      some ((c1.ret Cond.NA).1, 4)
  | 0xFB =>
      some ({ c with regs := c.regs.step_pc 1 }, 1)
  | i =>
      if i ∈ illegal_opcodes then some (c, 0) else none

/-- processor/cpu.rs Cpu::run. The enable_ime_next_frame and
enable_ime_this_frame latches of the source are local variables
reset to false on entry to every call, and the execute.rs step reports
only a cycle count with no side-effect channel, so neither latch can ever
be observed true: the promotion step before the fetch and the IME update
after the timer ticks are no-ops on every call and IME is never modified
by the non-interrupt path. The embedding therefore contains no IME update
in that path, exactly as the source behaves. -/
def Cpu.run (c : Cpu) : Option (Cpu × Nat) :=
  match c.service_interrupt with
  | (c1, true) => some ({ c1 with halted := false, stopped := false }, 0)
  | (_, false) =>
    if !c.halted && !c.stopped then
      match c.step with
      | none => none
      | some stepped => some (stepped.1.tick_timers (4 * stepped.2), stepped.2)
    else
      if c.halted && !c.ime then
        if 0 < c.memory.readByte IF_REG_ADDR then
          some ({ c with halted := false }, 0)
        else
          some (c.tick_timers 4, 0)
      else
        some (c.tick_timers 4, 0)

/-! ## PPU (ppu.rs) -/

/-- ppu.rs RenderMode. -/
inductive RenderMode where
  | OAMScan
  | PixelDraw
  | HBlank
  | VBlank
  deriving DecidableEq

/-- ppu.rs RenderMode::mode_number. -/
def RenderMode.mode_number : RenderMode → Nat
  | RenderMode.OAMScan => 2
  | RenderMode.PixelDraw => 3
  | RenderMode.HBlank => 0
  | RenderMode.VBlank => 1

/-- ppu.rs timing constants: 456 dots per line, VBlank starting at line 144,
reset at 154 lines. -/
def DOTS_PER_LINE : Nat := 456
def VBLANK_START_DOTS : Nat := DOTS_PER_LINE * 144
def DOT_MAX : Nat := VBLANK_START_DOTS + 10 * DOTS_PER_LINE
def OAM_SCAN_TIME : Nat := 80
def PIXEL_DRAW_TIME : Nat := 172
def HBLANK_TIME : Nat := 204
def PIXEL_DRAW_END_DOTS : Nat := OAM_SCAN_TIME + PIXEL_DRAW_TIME

/-- ppu.rs Ppu, restricted to the fields that feed the LY / STAT / IF
protocol: the mode register, the dot counter and the frame_ready latch.
The double display buffer, the OAM scan results and the window line
counter only feed the pixel compositing of draw_line, which reads memory
but never writes it. -/
structure Ppu where
  current_mode : RenderMode
  current_dot : Nat
  frame_ready : Bool
  deriving DecidableEq

/-- ppu.rs Ppu::update_render_state. The scan line `ly` is computed from
current_dot BEFORE the mode match (which is where the VBlank arm resets
current_dot to 0), cast to u8, and written to LY (0xFF44) after the match.
The LY=LYC rising-edge flag is only sampled when current_dot is a line
boundary. STAT keeps its upper five bits and receives the LY=LYC bit and
the new mode number; the STAT/VBlank interrupt bits are then ORed into IF.
Returns the new PPU state and memory. -/
def Ppu.update_render_state (p : Ppu) (memory : MemoryMap) : Ppu × MemoryMap :=
  let ly := (p.current_dot / DOTS_PER_LINE) % 256
  let lyc := memory.readByte 0xFF45
  let ly_eq_lyc := if p.current_dot % DOTS_PER_LINE = 0 then decide (ly = lyc) else false
  let next :=
    match p.current_mode with
    | RenderMode.OAMScan =>
        if OAM_SCAN_TIME ≤ p.current_dot % DOTS_PER_LINE then
          (RenderMode.PixelDraw, p.current_dot, false, false, false)
        else (RenderMode.OAMScan, p.current_dot, false, false, false)
    | RenderMode.PixelDraw =>
        if PIXEL_DRAW_END_DOTS ≤ p.current_dot % DOTS_PER_LINE then
          (RenderMode.HBlank, p.current_dot, false, true, false)
        else (RenderMode.PixelDraw, p.current_dot, false, false, false)
    | RenderMode.HBlank =>
        if p.current_dot % DOTS_PER_LINE = 0 then
          if VBLANK_START_DOTS ≤ p.current_dot then
            (RenderMode.VBlank, p.current_dot, false, false, true)
          else (RenderMode.OAMScan, p.current_dot, true, false, false)
        else (RenderMode.HBlank, p.current_dot, false, false, false)
    | RenderMode.VBlank =>
        if DOT_MAX ≤ p.current_dot then
          (RenderMode.OAMScan, 0, true, false, false)
        else (RenderMode.VBlank, p.current_dot, false, false, false)
  let mode := next.1
  let dot := next.2.1
  let start_oam_scan := next.2.2.1
  let start_hblank := next.2.2.2.1
  let start_vblank := next.2.2.2.2
  let memory1 := memory.writeByte ly 0xFF44
  let ly_eq_lyc_flag := (if lyc = ly then 1 else 0) <<< 2
  let mode_number_flag := mode.mode_number
  let old_stat := memory1.readByte 0xFF41
  let stat := (old_stat &&& (0xFF ^^^ 0x7)) ||| (ly_eq_lyc_flag ||| mode_number_flag)
  let memory2 := memory1.writeByte stat 0xFF41
  let interrupt_flag := memory2.readByte IF_REG_ADDR
  let interrupt_flag1 :=
    if (start_oam_scan && decide (0 < (stat &&& (1 <<< 5))))
        || (ly_eq_lyc && decide (0 < (stat &&& (1 <<< 6))))
        || (start_vblank && decide (0 < (stat &&& (1 <<< 4))))
        || (start_hblank && decide (0 < (stat &&& (1 <<< 3)))) then
      interrupt_flag ||| 0x2
    else interrupt_flag
  let interrupt_flag2 := if start_vblank then interrupt_flag1 ||| 0x1 else interrupt_flag1
  let memory3 := memory2.writeByte interrupt_flag2 IF_REG_ADDR
  ({ p with current_mode := mode, current_dot := dot }, memory3)

/-- ppu.rs Ppu::run. The LCD-disabled refresh branch is commented out in
the source. Each mode advances current_dot by its granularity
(OAM 80/40 = 2, PixelDraw 172/4 = 43, HBlank 204/17 = 12,
VBlank 456/19 = 24); the VBlank arm raises frame_ready at the start of
the last VBlank line (the buffer swap touches only the display buffers).
The OAM scan collection and draw_line only read memory, so the memory is
changed solely by update_render_state, which runs at the end of every
step. Returns the new PPU state, the memory, and the dots spent. -/
def Ppu.run (p : Ppu) (memory : MemoryMap) : Ppu × MemoryMap × Nat :=
  let stepped :=
    match p.current_mode with
    | RenderMode.OAMScan =>
        ({ p with current_dot := p.current_dot + OAM_SCAN_TIME / 40 }, OAM_SCAN_TIME / 40)
    | RenderMode.PixelDraw =>
        ({ p with current_dot := p.current_dot + PIXEL_DRAW_TIME / 4 }, PIXEL_DRAW_TIME / 4)
    | RenderMode.HBlank =>
        ({ p with current_dot := p.current_dot + HBLANK_TIME / 17 }, HBLANK_TIME / 17)
    | RenderMode.VBlank =>
        let p1 := if p.current_dot = DOT_MAX - DOTS_PER_LINE then { p with frame_ready := true } else p
        ({ p1 with current_dot := p1.current_dot + DOTS_PER_LINE / 19 }, DOTS_PER_LINE / 19)
  let updated := stepped.1.update_render_state memory
  (updated.1, updated.2, stepped.2)

/-! ## Concrete initial states for evaluation.

mem0 mirrors memory_gb.rs MemoryMap::allocate: every region starts zeroed
except the io registers, which start at 0xFF; the timer starts as
Timer::new (control 0x04, everything else zero); the joypad as
Joypad::new (all buttons released, Buttons mode). regs_boot mirrors the
initial register bytes of processor/cpu.rs Cpu::new. -/

def joypad0 : Joypad := { button_values := 0xFF, mode := JoypadMode.Buttons }

def timer0 : Timer :=
  { overflowing := false, divider := 0, counter := 0, modulo := 0, control := 0x04 }

def cart0 : Cart := { rom := fun _ => 0 }

def mem0 : MemoryMap :=
  { cart := cart0
    timer := timer0
    joypad := joypad0
    vram := fun _ => 0
    work_ram := fun _ => 0
    work_ram_swappable := fun _ => 0
    echo_ram := fun _ => 0
    oam := fun _ => 0
    unusable := fun _ => 0
    io_registers := fun _ => 0xFF
    hram := fun _ => 0
    ie := 0 }

/-- The boot register bytes of processor/cpu.rs Cpu::new:
F A C B E D L H SP-low SP-high PC-low PC-high. -/
def regs_boot : Regs := fun i =>
  match i with
  | 0 => 0xB0
  | 1 => 0x01
  | 2 => 0x13
  | 3 => 0x00
  | 4 => 0xD8
  | 5 => 0x00
  | 6 => 0x4D
  | 7 => 0x01
  | 8 => 0xFE
  | 9 => 0xFF
  | 10 => 0x00
  | 11 => 0x01
  | _ => 0

/-! ## Helper lemmas on buffers and the register file -/

theorem upd_self {f : Nat → Nat} {i v : Nat} : upd f i v i = v := by
  simp [upd]

theorem upd_other {f : Nat → Nat} {i j v : Nat} (h : j ≠ i) :
    upd f i v j = f j := by
  simp [upd, h]

theorem Regs.readWord_writeWord_self (r : Regs) (i v : Nat) (hv : v < 65536) :
    (r.writeWord i v).readWord i = v := by
  unfold Regs.readWord Regs.writeWord
  rw [upd_other (show i ≠ i + 1 by omega), upd_self, upd_self]
  omega

theorem Regs.readWord_writeWord_disjoint (r : Regs) {i j : Nat} (v : Nat)
    (h1 : i ≠ j) (h2 : i ≠ j + 1) (h3 : i + 1 ≠ j) :
    (r.writeWord j v).readWord i = r.readWord i := by
  unfold Regs.readWord Regs.writeWord
  rw [upd_other h2, upd_other h1, upd_other (show i + 1 ≠ j + 1 by omega), upd_other h3]

/-! ## Claim theorems -/

/-- Concrete CPU state whose next instruction is JR +5 (opcode 0x18 with
operand 0x05 in work RAM at 0xC000). -/
def cpu_jr : Cpu :=
  { regs := (regs_boot.writeWord RegPC 0xC000).writeWord RegSP 0xFFFE
    memory := { mem0 with work_ram := upd (upd mem0.work_ram 0 0x18) 1 0x05 }
    ime := false
    halted := false
    stopped := false }

/-- C2: executing the unconditional JR (opcode 0x18) with operand +5 from
PC = 0xC000 leaves PC = 0xC002 (only the operand advance) and instead
stores the jump target 0xC007 into SP: the source Cpu::jr writes the
computed target to the RegSP register, so PC never receives it, refuting
the claim that PC is set to the following instruction plus the offset. -/
theorem c2_jr_writes_sp :
    (cpu_jr.step).map
        (fun s => (s.2, s.1.regs.readWord RegPC, s.1.regs.readWord RegSP)) =
      some (3, 0xC002, 0xC007) ∧
    ¬ (cpu_jr.step).map (fun s => s.1.regs.readWord RegPC) = some 0xC007 := by
  constructor
  · decide
  · decide

/-- Concrete CPU state whose next two instructions are EI (0xFB) then
NOP (0x00), with IME initially clear. -/
def cpu_ei : Cpu :=
  { regs := (regs_boot.writeWord RegPC 0xC000).writeWord RegSP 0xC100
    memory := { mem0 with work_ram := upd (upd mem0.work_ram 0 0xFB) 1 0x00 }
    ime := false
    halted := false
    stopped := false }

/-- Concrete CPU state whose next instruction is RETI (0xD9), with IME
initially clear. -/
def cpu_reti : Cpu :=
  { regs := (regs_boot.writeWord RegPC 0xC000).writeWord RegSP 0xC100
    memory := { mem0 with work_ram := upd mem0.work_ram 0 0xD9 }
    ime := false
    halted := false
    stopped := false }

/-- C3: the EI delay never happens and RETI never enables interrupts.
Executing EI leaves IME clear, and IME is still clear after the following
NOP has executed (the execute.rs 0xFB arm is an empty TODO and the
enable_ime latches of Cpu::run are locals reset on every call); executing
RETI performs the return (PC receives the popped word 0x0000) but leaves
IME clear as well (the 0xD9 arm is a plain RET). -/
theorem c3_ei_reti_never_enable_ime :
    (cpu_ei.run).map (fun s => (s.1.ime, s.2)) = some (false, 1) ∧
    ((cpu_ei.run).bind (fun s => s.1.run)).map (fun s => s.1.ime) = some false ∧
    (cpu_reti.run).map
        (fun s => (s.1.ime, s.1.regs.readWord RegPC, s.1.regs.readWord RegSP)) =
      some (false, 0x0000, 0xC102) := by
  refine ⟨by decide, by decide, by decide⟩

/-- Concrete CPU state with A = 0x80 (other registers at boot values). -/
def cpu_add : Cpu :=
  { regs := regs_boot.writeByte RegA 0x80
    memory := mem0
    ime := false
    halted := false
    stopped := false }

/-- C4: adding 0x80 to 0x80 does NOT set Z. byte_addition computes the
widened sum 0x100, stores its low byte 0x00, but derives the zero flag
from the full widened sum, so zero = false although the low 8 bits are
zero; add_byte accordingly leaves A = 0 with the Z flag clear, against
the specified Z = (result-low-8 == 0). -/
theorem c4_zero_flag_from_widened_sum :
    cpu_add.byte_addition 0x80 0x80 false = (0, false, false, false, true) ∧
    (cpu_add.add_byte 0x80 false).regs.readByte RegA = 0 ∧
    (cpu_add.add_byte 0x80 false).regs.check_flag FlagZ = false := by
  refine ⟨by decide, by decide, by decide⟩

/-- Memory state whose timer divider is 0x0500, so that a byte read of
DIV (0xFF04) returns 0x05. -/
def mem_div5 : MemoryMap :=
  { mem0 with timer := { timer0 with divider := 0x0500 } }

/-- C5 counterexample: at address 0xFF03 a word write is NOT the two byte
writes at (0xFF03, 0xFF04). The word write dispatches once into the plain
io-register buffer, storing both bytes there, so the divider keeps its
value 0x0500 and a subsequent DIV read returns 5; the two byte writes
trap the second byte at 0xFF04 into the divider, which is cleared, and
the same read returns 0. -/
theorem c5_word_write_not_two_byte_writes :
    ((mem_div5.writeWord 0 0xFF03).readByte 0xFF04 = 5) ∧
    (((mem_div5.writeByte 0 0xFF03).writeByte 0 0xFF04).readByte 0xFF04 = 0) := by
  refine ⟨by decide, by decide⟩

/-- C6: the echo region does not mirror work RAM. Writing 0xAB at 0xC000
is invisible at 0xE000 (which still reads the all-zero echo
buffer), and writing 0xCD at 0xE000 is invisible at 0xC000: the source
gives 0xE000-0xFDFF its own echo_ram buffer instead of redirecting to
work RAM minus 0x2000. -/
theorem c6_echo_ram_not_mirrored :
    ((mem0.writeByte 0xAB 0xC000).readByte 0xC000 = 0xAB) ∧
    ((mem0.writeByte 0xAB 0xC000).readByte 0xE000 = 0) ∧
    ((mem0.writeByte 0xCD 0xE000).readByte 0xE000 = 0xCD) ∧
    ((mem0.writeByte 0xCD 0xE000).readByte 0xC000 = 0) := by
  refine ⟨by decide, by decide, by decide, by decide⟩

/-- C7: a byte write of any value to DIV (0xFF04) produces exactly the
state with the 16-bit divider zeroed and NOTHING else changed - the write
path consists solely of Timer write_divider, so no APU notification of
any kind takes place - and the next read of 0xFF04 returns 0. -/
theorem c7_div_write_only_zeroes_divider (m : MemoryMap) (v : Nat) :
    m.writeByte v 0xFF04 = { m with timer := { m.timer with divider := 0 } } ∧
    (m.writeByte v 0xFF04).readByte 0xFF04 = 0 := by
  have h1 : m.writeByte v 0xFF04 = { m with timer := { m.timer with divider := 0 } } := rfl
  refine ⟨h1, ?_⟩
  rw [h1]
  simp [MemoryMap.readByte, Timer.read_divider]

/-- PPU state at the start of the last VBlank granule of a frame:
current_dot = 70200, one 24-dot step before the 70224-dot frame boundary. -/
def ppu_frame_end : Ppu :=
  { current_mode := RenderMode.VBlank, current_dot := 70200, frame_ready := false }

/-- C8: at the frame boundary the PPU writes LY = 154, exceeding the
claimed bound of 153. update_render_state computes ly from current_dot
BEFORE the VBlank arm resets the counter, so the step that moves
current_dot from 70200 to 70224 = 456 * 154 writes 154 into LY. -/
theorem c8_ly_reaches_154 :
    ((ppu_frame_end.run mem0).2.1.readByte 0xFF44 = 154) ∧
    ¬ ((ppu_frame_end.run mem0).2.1.readByte 0xFF44 ≤ 153) := by
  refine ⟨by decide, by decide⟩

/-- Concrete CPU state whose next opcode is the illegal 0xD3. -/
def cpu_ill : Cpu :=
  { regs := regs_boot.writeWord RegPC 0xC000
    memory := { mem0 with work_ram := upd mem0.work_ram 0 0xD3 }
    ime := false
    halted := false
    stopped := false }

/-- C9 counterexample: the illegal opcode 0xD3 is NOT a 1-machine-cycle
NOP. The catch-all arm of step returns the state unchanged with cost 0:
PC stays at 0xC000 and no step of cost 1 advancing PC to 0xC001 exists. -/
theorem c9_illegal_not_one_cycle_nop :
    cpu_ill.step = some (cpu_ill, 0) ∧
    ¬ ∃ c', cpu_ill.step = some (c', 1) ∧ c'.regs.readWord RegPC = 0xC001 := by
  have h0 : cpu_ill.step = some (cpu_ill, 0) := rfl
  refine ⟨h0, ?_⟩
  rintro ⟨c', hc, -⟩
  rw [h0] at hc
  simp at hc

/-- C10 counterexample: from A = 0x9A with N, C, H all clear (an N=0 state
with A exceeding 0x99), the daa adjustment arithmetic leaves the 8-bit
lane: the first adjustment yields 0xFA and the second reaches 0x100, so
the u8 addition overflows and daa is not total on this state. -/
theorem c10_daa_leaves_lane :
    (0x9A < 256) ∧ ¬ daa_in_lane 0x9A false false false := by
  refine ⟨by decide, by decide⟩

set_option maxRecDepth 8192 in
/-- C10 amended: for every byte value of A and every combination of the
N, C, H flags, the daa adjustment arithmetic stays inside the 8-bit lane
exactly when no triggered adjustment crosses a lane boundary: with N = 0
this holds precisely when A does not exceed 0x99, and with N = 1
precisely when the triggered subtractions do not borrow (C requires
A at least 0x60, and H additionally requires 0x06 below the remaining
value). In particular totality fails for every N = 0 state with
A above 0x99. -/
theorem c10_daa_in_lane_characterization :
    ∀ (a : Fin 256) (n c h : Bool),
      daa_in_lane a.val n c h ↔
        ((n = false → a.val ≤ 0x99) ∧
         (n = true →
            (c = true → 0x60 ≤ a.val) ∧
            (h = true → 0x6 + (if c then 0x60 else 0) ≤ a.val))) := by
  decide

/-- C9 amended: every one of the eleven illegal opcodes is handled by the
catch-all arm of step as a 0-cost no-op: the state (PC included) is
returned unchanged with 0 machine cycles, and step is total there (it
never panics). -/
theorem c9_illegal_opcodes_zero_cost_noop (c : Cpu)
    (h : c.fetch ∈ illegal_opcodes) : c.step = some (c, 0) := by
  have h' : c.fetch = 0xD3 ∨ c.fetch = 0xDB ∨ c.fetch = 0xDD ∨ c.fetch = 0xE3 ∨
      c.fetch = 0xE4 ∨ c.fetch = 0xEB ∨ c.fetch = 0xEC ∨ c.fetch = 0xED ∨
      c.fetch = 0xF4 ∨ c.fetch = 0xFC ∨ c.fetch = 0xFD := by
    simpa [illegal_opcodes] using h
  unfold Cpu.step
  rcases h' with h'|h'|h'|h'|h'|h'|h'|h'|h'|h'|h' <;> rw [h'] <;> rfl

/-- Concrete CPU state whose next opcode is the illegal 0xDB. -/
def cpu_ill_db : Cpu :=
  { regs := regs_boot.writeWord RegPC 0xC000
    memory := { mem0 with work_ram := upd mem0.work_ram 0 0xDB }
    ime := false
    halted := false
    stopped := false }

/-- C9 witness: the amended theorem applied at the concrete state whose
next opcode is 0xDB. -/
theorem c9_witness :
    cpu_ill_db.fetch ∈ illegal_opcodes ∧ cpu_ill_db.step = some (cpu_ill_db, 0) :=
  ⟨by decide, c9_illegal_opcodes_zero_cost_noop cpu_ill_db (by decide)⟩

/-! ## Dispatch lemmas for the work-RAM region 0xC000-0xCFFF -/

theorem readByte_wram (m : MemoryMap) {addr : Nat}
    (h1 : 0xC000 ≤ addr) (h2 : addr < 0xD000) :
    m.readByte addr = m.work_ram (addr - 0xC000) := by
  unfold MemoryMap.readByte
  rw [if_neg (by omega), if_neg (by omega), if_neg (by omega), if_neg (by omega),
    if_neg (by omega), if_neg (by omega), if_neg (by omega), if_pos h1]

theorem readWord_wram (m : MemoryMap) {addr : Nat}
    (h1 : 0xC000 ≤ addr) (h2 : addr < 0xD000) :
    m.readWord addr = m.work_ram (addr - 0xC000) + 256 * m.work_ram (addr - 0xC000 + 1) := by
  unfold MemoryMap.readWord
  rw [if_neg (by omega), if_neg (by omega), if_neg (by omega), if_neg (by omega),
    if_neg (by omega), if_neg (by omega), if_neg (by omega), if_pos h1]

theorem writeByte_wram (m : MemoryMap) (v : Nat) {addr : Nat}
    (h1 : 0xC000 ≤ addr) (h2 : addr < 0xD000) :
    m.writeByte v addr = { m with work_ram := upd m.work_ram (addr - 0xC000) (v % 256) } := by
  unfold MemoryMap.writeByte
  rw [if_neg (by omega), if_neg (by omega), if_neg (by omega), if_neg (by omega),
    if_neg (by omega), if_neg (by omega), if_neg (by omega), if_pos h1]

theorem writeWord_wram (m : MemoryMap) (v : Nat) {addr : Nat}
    (h1 : 0xC000 ≤ addr) (h2 : addr < 0xD000) :
    m.writeWord v addr =
      { m with work_ram := upd (upd m.work_ram (addr - 0xC000) (v % 256)) (addr - 0xC000 + 1) ((v / 256) % 256) } := by
  unfold MemoryMap.writeWord
  rw [if_neg (by omega), if_neg (by omega), if_neg (by omega), if_neg (by omega),
    if_neg (by omega), if_neg (by omega), if_neg (by omega), if_pos h1]

/-- C5 amended: for every address whose byte pair lies inside the single
plain work-RAM region (0xC000 to 0xCFFE), the word write of w is exactly
the two byte writes of the low byte at addr and the high byte at addr + 1,
the word read is the two corresponding byte reads assembled little-endian,
and for every 16-bit w, writing w to 0xC000 and reading a word there
returns w. (At trapped io addresses and at region boundaries the word
operations are a single-region double-byte access and the equivalence
fails; see the counterexample.) -/
theorem c5_word_ops_within_wram (m : MemoryMap) (w addr : Nat)
    (h1 : 0xC000 ≤ addr) (h2 : addr + 1 < 0xD000) (hw : w < 65536) :
    m.writeWord w addr = (m.writeByte (w % 256) addr).writeByte ((w / 256) % 256) (addr + 1) ∧
    m.readWord addr = m.readByte addr + 256 * m.readByte (addr + 1) ∧
    (m.writeWord w 0xC000).readWord 0xC000 = w := by
  have e1 : addr + 1 - 0xC000 = addr - 0xC000 + 1 := by omega
  refine ⟨?_, ?_, ?_⟩
  · rw [writeWord_wram m w h1 (by omega), writeByte_wram m (w % 256) h1 (by omega)]
    rw [writeByte_wram _ ((w / 256) % 256) (by omega) h2]
    have e2 : w % 256 % 256 = w % 256 := by omega
    have e3 : w / 256 % 256 % 256 = w / 256 % 256 := by omega
    simp only [e1, e2, e3]
  · rw [readWord_wram m h1 (by omega), readByte_wram m h1 (by omega),
      readByte_wram m (by omega) h2, e1]
  · rw [writeWord_wram m w (by omega) (by omega), readWord_wram _ (by omega) (by omega)]
    simp only [show (0xC000:Nat) - 0xC000 = 0 by omega]
    rw [upd_other (show (0:Nat) ≠ 0 + 1 by omega), upd_self, upd_self]
    omega

/-- C5 witness: the amended theorem applied at the freshly allocated memory
map, w = 0xBEEF, addr = 0xC123. -/
theorem c5_witness :
    (0xC000 ≤ 0xC123) ∧ (0xC123 + 1 < 0xD000) ∧ (0xBEEF < 65536) ∧
    (mem0.writeWord 0xBEEF 0xC123 =
        (mem0.writeByte (0xBEEF % 256) 0xC123).writeByte ((0xBEEF / 256) % 256) (0xC123 + 1) ∧
      mem0.readWord 0xC123 = mem0.readByte 0xC123 + 256 * mem0.readByte (0xC123 + 1) ∧
      (mem0.writeWord 0xBEEF 0xC000).readWord 0xC000 = 0xBEEF) :=
  ⟨by decide, by decide, by decide,
    c5_word_ops_within_wram mem0 0xBEEF 0xC123 (by decide) (by decide) (by decide)⟩

/-! ## Interrupt service characterization (C1) -/

/-- The ISR addresses selected by the service_interrupt chain, indexed by
the IF bit position; every index of 4 and above lands on the joypad
vector, matching the unconditional else arm of the source. -/
def isr_vector : Nat → Nat
  | 0 => 0x0040
  | 1 => 0x0048
  | 2 => 0x0050
  | 3 => 0x0058
  | _ => 0x0060

theorem isr_vector_lt (k : Nat) : isr_vector k < 65536 := by
  rcases k with _|_|_|_|k <;> simp [isr_vector]

/-- Unfolding of an unconditional call: push PC, then write PC. -/
theorem call_na_unfold (c : Cpu) (address : Nat) :
    (c.call address Cond.NA).1 =
      { c.push RegPC with regs := (c.push RegPC).regs.writeWord RegPC address } := rfl

/-- Unfolding of Cpu.push on the PC pair: the two SP register writes and
the memory word write of the pushed PC at the decremented SP. -/
theorem push_pc_unfold (c : Cpu) :
    c.push RegPC =
      { c with
        regs := (c.regs.writeWord RegSP ((c.regs.readWord RegSP + 65534) % 65536)).writeWord RegSP ((c.regs.readWord RegSP + 65534) % 65536)
        memory := c.memory.writeWord ((c.regs.writeWord RegSP ((c.regs.readWord RegSP + 65534) % 65536)).readWord RegPC) ((c.regs.readWord RegSP + 65534) % 65536) } := rfl

/-- When IME is set, IE and IF intersect, and bit k (k < 5) is the lowest
set bit of IF, service_interrupt clears that IF bit through the memory
map, clears IME, and performs the unconditional call to the matching ISR
vector, reporting true. -/
theorem service_interrupt_services (c : Cpu) (k : Nat)
    (hime : c.ime = true)
    (hie : 0 < (c.memory.readByte IE_REG_ADDR &&& c.memory.readByte IF_REG_ADDR))
    (hk : k < 5)
    (hbit : 0 < (c.memory.readByte IF_REG_ADDR &&& (1 <<< k)))
    (hlow : ∀ j < k, c.memory.readByte IF_REG_ADDR &&& (1 <<< j) = 0) :
    c.service_interrupt =
      ((({ c with
            memory := c.memory.writeByte ((0xFF ^^^ (1 <<< k)) &&& c.memory.readByte IF_REG_ADDR) IF_REG_ADDR
            ime := false }).call (isr_vector k) Cond.NA).1, true) := by
  have hcond : c.ime = true ∧ 0 < (c.memory.readByte IE_REG_ADDR &&& c.memory.readByte IF_REG_ADDR) :=
    And.intro hime hie
  simp only [Cpu.service_interrupt]
  rw [if_pos hcond]
  interval_cases k
  · rw [if_pos hbit]
    rfl
  · rw [if_neg (by simp only [hlow 0 (by omega)]; omega), if_pos hbit]
    rfl
  · rw [if_neg (by simp only [hlow 0 (by omega)]; omega),
      if_neg (by simp only [hlow 1 (by omega)]; omega), if_pos hbit]
    rfl
  · rw [if_neg (by simp only [hlow 0 (by omega)]; omega),
      if_neg (by simp only [hlow 1 (by omega)]; omega),
      if_neg (by simp only [hlow 2 (by omega)]; omega), if_pos hbit]
    rfl
  · rw [if_neg (by simp only [hlow 0 (by omega)]; omega),
      if_neg (by simp only [hlow 1 (by omega)]; omega),
      if_neg (by simp only [hlow 2 (by omega)]; omega),
      if_neg (by simp only [hlow 3 (by omega)]; omega)]
    rfl

set_option maxRecDepth 16384 in
/-- C1 amended: for every CPU state at the start of a machine cycle in
which IME is set, (IE AND IF) is nonzero, AND at least one of the five
low IF bits is pending - k being the lowest such bit, in the priority
order VBlank, STAT, Timer, Serial, Joypad - the run step services the
interrupt: it clears IME, clears that IF bit, pushes PC onto the stack
(SP becomes SP - 2 modulo 2^16 and the old PC word is written there
through the memory map), jumps PC to the matching vector among
0x40, 0x48, 0x50, 0x58, 0x60, leaves the Halted and Stopped states, and
charges no cycles. (Without the added low-bits hypothesis the claim
fails: when IE and IF overlap only on bits 5 to 7 the code still
services a phantom joypad interrupt; see the counterexample.) -/
theorem c1_interrupt_service (c : Cpu) (k : Nat)
    (hime : c.ime = true)
    (hie : 0 < (c.memory.readByte IE_REG_ADDR &&& c.memory.readByte IF_REG_ADDR))
    (hk : k < 5)
    (hbit : 0 < (c.memory.readByte IF_REG_ADDR &&& (1 <<< k)))
    (hlow : ∀ j < k, c.memory.readByte IF_REG_ADDR &&& (1 <<< j) = 0) :
    ∃ d, c.run = some (d, 0) ∧
      d.ime = false ∧ d.halted = false ∧ d.stopped = false ∧
      d.regs.readWord RegPC = isr_vector k ∧
      d.regs.readWord RegSP = (c.regs.readWord RegSP + 65534) % 65536 ∧
      d.memory = (c.memory.writeByte ((0xFF ^^^ (1 <<< k)) &&& c.memory.readByte IF_REG_ADDR)
          IF_REG_ADDR).writeWord (c.regs.readWord RegPC)
          ((c.regs.readWord RegSP + 65534) % 65536) := by
  have hserv := service_interrupt_services c k hime hie hk hbit hlow
  have hserv2 : c.service_interrupt =
      ({ regs := ((c.regs.writeWord RegSP ((c.regs.readWord RegSP + 65534) % 65536)).writeWord
            RegSP ((c.regs.readWord RegSP + 65534) % 65536)).writeWord RegPC (isr_vector k)
         memory := (c.memory.writeByte ((0xFF ^^^ (1 <<< k)) &&& c.memory.readByte IF_REG_ADDR)
            IF_REG_ADDR).writeWord
            ((c.regs.writeWord RegSP ((c.regs.readWord RegSP + 65534) % 65536)).readWord RegPC)
            ((c.regs.readWord RegSP + 65534) % 65536)
         ime := false
         halted := c.halted
         stopped := c.stopped }, true) := by
    rw [hserv, call_na_unfold, push_pc_unfold]
  have hrun : c.run = some
      ({ regs := ((c.regs.writeWord RegSP ((c.regs.readWord RegSP + 65534) % 65536)).writeWord
            RegSP ((c.regs.readWord RegSP + 65534) % 65536)).writeWord RegPC (isr_vector k)
         memory := (c.memory.writeByte ((0xFF ^^^ (1 <<< k)) &&& c.memory.readByte IF_REG_ADDR)
            IF_REG_ADDR).writeWord
            ((c.regs.writeWord RegSP ((c.regs.readWord RegSP + 65534) % 65536)).readWord RegPC)
            ((c.regs.readWord RegSP + 65534) % 65536)
         ime := false
         halted := false
         stopped := false }, 0) := by
    unfold Cpu.run
    rw [hserv2]
  refine ⟨_, hrun, rfl, rfl, rfl, ?_, ?_, ?_⟩
  · exact Regs.readWord_writeWord_self _ RegPC (isr_vector k) (isr_vector_lt k)
  · rw [Regs.readWord_writeWord_disjoint _ _ (by decide) (by decide) (by decide)]
    exact Regs.readWord_writeWord_self _ RegSP _ (by omega)
  · rw [Regs.readWord_writeWord_disjoint _ _ (by decide) (by decide) (by decide)]

/-- Concrete CPU state with IME set, IE = 0x20 and IF = 0x20: the enabled
pending interrupt lies on bit 5, outside the five architectural sources. -/
def cpu_ghost : Cpu :=
  { regs := regs_boot.writeWord RegSP 0xC100
    memory := { mem0 with io_registers := upd mem0.io_registers 0x0F 0x20, ie := 0x20 }
    ime := true
    halted := false
    stopped := false }

/-- C1 counterexample: a state satisfying the claim hypothesis - IME set
and (IE AND IF) nonzero - in which NONE of the five interrupts VBlank,
STAT, Timer, Serial, Joypad is pending (all five low IF bits are clear),
so the lowest-bit pending interrupt the claim speaks of does not exist;
the code nevertheless services a phantom joypad interrupt: it jumps PC to
0x60 and leaves IF unchanged at 0x20 (clearing the already-clear bit 4),
charging 0 cycles. -/
theorem c1_phantom_joypad_interrupt :
    cpu_ghost.ime = true ∧
    0 < (cpu_ghost.memory.readByte IE_REG_ADDR &&& cpu_ghost.memory.readByte IF_REG_ADDR) ∧
    (∀ k < 5, cpu_ghost.memory.readByte IF_REG_ADDR &&& (1 <<< k) = 0) ∧
    (cpu_ghost.run).map
        (fun s => (s.1.regs.readWord RegPC, s.1.memory.readByte IF_REG_ADDR, s.2)) =
      some (0x60, 0x20, 0) := by
  refine ⟨rfl, by decide, by decide, by decide⟩

/-- Concrete CPU state realizing the spec scenario: IE = 0x03, IF = 0x03,
IME = 1, with boot registers (PC = 0x0100, SP = 0xFFFE). -/
def cpu_int : Cpu :=
  { regs := regs_boot
    memory := { mem0 with io_registers := upd mem0.io_registers 0x0F 0x03, ie := 0x03 }
    ime := true
    halted := false
    stopped := false }

/-- C1 witness: the amended theorem applied at IE = 0x03, IF = 0x03,
IME = 1 with k = 0, plus the direct evaluation of the scenario: VBlank is
serviced first, PC = 0x40 and IF = 0x02 afterwards. -/
theorem c1_witness :
    cpu_int.ime = true ∧
    0 < (cpu_int.memory.readByte IE_REG_ADDR &&& cpu_int.memory.readByte IF_REG_ADDR) ∧
    0 < (cpu_int.memory.readByte IF_REG_ADDR &&& (1 <<< 0)) ∧
    (∃ d, cpu_int.run = some (d, 0) ∧
      d.ime = false ∧ d.halted = false ∧ d.stopped = false ∧
      d.regs.readWord RegPC = isr_vector 0 ∧
      d.regs.readWord RegSP = (cpu_int.regs.readWord RegSP + 65534) % 65536 ∧
      d.memory = (cpu_int.memory.writeByte
          ((0xFF ^^^ (1 <<< 0)) &&& cpu_int.memory.readByte IF_REG_ADDR)
          IF_REG_ADDR).writeWord (cpu_int.regs.readWord RegPC)
          ((cpu_int.regs.readWord RegSP + 65534) % 65536)) ∧
    (cpu_int.run).map
        (fun s => (s.1.regs.readWord RegPC, s.1.memory.readByte IF_REG_ADDR)) =
      some (0x40, 0x02) :=
  ⟨rfl, by decide, by decide,
    c1_interrupt_service cpu_int 0 rfl (by decide) (by decide) (by decide) (by decide),
    by decide⟩

end Gbzd
